import Mathlib

/-!
# go-s3-upload-server: the upload route

A shallow embedding of `main.go`: the three handlers `authMiddleware`,
`IPWhiteList` and `uploadFile`, the configuration that `main` reads from the
environment, and the part of the gin handler chain (`Next`, `Abort`, `JSON`)
that decides which of them run.

Conventions of the embedding.

* A Go `string` is a Lean `String`, that is, a Go string holding text; on
  these the byte order Go sorts by is the order of the code points.  A
  `[]byte` is a `List UInt8`.
* A Go `map[string]T` is an association list read by first match; a missing
  key reads as the zero value.
* A response body is the JSON object that gin marshals, as the list of its
  members in the order the encoder emits them.
* The object store and the server log are outside the process.  The store is
  an oracle `PutObject` answering each write with `nil` or an error; every
  call made to it and every log line are recorded in the state.
* The handlers in front of the route group (`gin.Default()`'s logger and
  recovery, and CORS) are library code and are not part of the embedding: the
  chain starts at the first handler of the group `authorized`.
-/

set_option autoImplicit false

namespace UploadServer

/-! ## Library data: byte strings, JSON objects, maps, headers -/

/-- A Go byte slice. -/
abbrev Bytes := List UInt8

/-- The Go `error` values met here, by their text (`nil` is `Option.none`). -/
abbrev GoError := String

/-- A member value of the JSON objects the server writes. -/
inductive JsonValue where
  | str (s : String)
  | num (n : Int)
  deriving DecidableEq, Repr

/-- A marshalled JSON object: its members in emission order. -/
abbrev JsonObject := List (String × JsonValue)

/-- A Go `map[string]T` as an association list. -/
abbrev GoMap (T : Type) := List (String × T)

/-- Reading `m[k]` for a `map[string]bool`: `false` when `k` is absent. -/
def GoMap.index (m : GoMap Bool) (k : String) : Bool :=
  match m.lookup k with
  | some v => v
  | none => false

/-- The assignment `m[k] = v`. -/
def GoMap.set {T : Type} (m : GoMap T) (k : String) (v : T) : GoMap T :=
  (k, v) :: m.filter (fun e => e.1 != k)

/-- Order of Go strings: lexicographic on the bytes, which for text is
lexicographic on the code points. -/
def lexLE : List Char → List Char → Bool
  | [], _ => true
  | _ :: _, [] => false
  | a :: as, b :: bs => a.toNat < b.toNat || (a.toNat == b.toNat && lexLE as bs)

/-- Insertion of one member into a list of members sorted by key. -/
def insertByKey (e : String × JsonValue) : JsonObject → JsonObject
  | [] => [e]
  | x :: xs => if lexLE e.1.toList x.1.toList then e :: x :: xs else x :: insertByKey e xs

/-- Marshalling of a `gin.H` (a Go map): `encoding/json` emits the members
sorted by key. -/
def marshalH (h : List (String × JsonValue)) : JsonObject :=
  h.foldr insertByKey []

/-- A `http.Header` / `textproto.MIMEHeader`: canonical key to values. -/
abbrev Header := List (String × List String)

/-- The bytes `textproto` accepts in a header field name (`isTokenTable`). -/
def validHeaderFieldByte (c : Char) : Bool :=
  c.isAlphanum ||
    ['!', '#', '$', '%', '&', Char.ofNat 39, '*', '+', '-', '.', '^', '_',
      Char.ofNat 96, '|', '~'].contains c

/-- The capitalisation loop of `textproto.canonicalMIMEHeaderKey`: a letter
is upper-cased at the start and after `-`, lower-cased elsewhere. -/
def canonLoop : Bool → List Char → List Char
  | _, [] => []
  | upper, c :: cs =>
    let c1 := if upper && c.isLower then c.toUpper
              else if !upper && c.isUpper then c.toLower else c
    c1 :: canonLoop (c1 == '-') cs

/-- Go `textproto.CanonicalMIMEHeaderKey`: a key holding a space or a byte
that is not a token byte is returned unchanged. -/
def CanonicalMIMEHeaderKey (s : String) : String :=
  if s.toList.all validHeaderFieldByte then String.mk (canonLoop true s.toList) else s

/-- Go `Header.Get`: the first value under the canonical form of `key`, and
`""` when there is none. -/
def Header.Get (h : Header) (key : String) : String :=
  match h.lookup (CanonicalMIMEHeaderKey key) with
  | some (v :: _) => v
  | _ => ""

/-! ## `strings.Split` with a one-byte separator -/

/-- Go `strings.IndexByte`: position of the first `sep`, if any. -/
def IndexByte (sep : Char) : List Char → Option Nat
  | [] => none
  | c :: cs => if c = sep then some 0 else (IndexByte sep cs).map (· + 1)

/-- The loop of Go `strings.genSplit` for a separator of length one: at most
`n` cuts, each at the first separator of what is left; the rest is the last
segment. -/
def genSplit (sep : Char) : Nat → List Char → List (List Char)
  | 0, s => [s]
  | n + 1, s =>
    match IndexByte sep s with
    | none => [s]
    | some m => s.take m :: genSplit sep n (s.drop (m + 1))

/-- Go `strings.Split(s, sep)` for a one-byte `sep`: `genSplit` with
`Count(s, sep)` cuts. -/
def Split (s : String) (sep : Char) : List String :=
  (genSplit sep (s.toList.count sep) s.toList).map String.mk

/-! ## The request -/

/-- An opened `multipart.File`: what `io.ReadAll` returns on it. -/
structure File where
  ReadAll : Except GoError Bytes

/-- A `multipart.FileHeader`: the part's MIME header and the result of
`Open`. -/
structure FileHeader where
  Header : Header
  Open : Except GoError File

/-- A parsed `multipart.Form`. -/
structure Form where
  Value : GoMap (List String)
  File : GoMap (List FileHeader)

/-- The parts of a `http.Request` the handlers read.  `MultipartForm` is the
result of `ParseMultipartForm`; `ClientIP` is the address gin's `ClientIP()`
resolves for the connection. -/
structure Request where
  Header : Header
  MultipartForm : Except GoError Form
  ClientIP : String

/-- Go `(*http.Request).FormFile`: fails when the form does not parse, when
no file part has the name, or when the first such part does not open. -/
def Request.FormFile (r : Request) (key : String) : Except GoError (File × FileHeader) :=
  match r.MultipartForm with
  | .error e => .error e
  | .ok form =>
    match form.File.lookup key with
    | some (fh :: _) =>
      match fh.Open with
      | .ok f => .ok (f, fh)
      | .error e => .error e
    | _ => .error "http: no such file"

/-! ## gin's context -/

/-- The response writer of gin: the status, whether the header has gone out,
and the bodies written. -/
structure ResponseWriter where
  status : Nat
  written : Bool
  body : List JsonObject
  deriving DecidableEq

/-- Go `responseWriter.WriteHeader`: a status set after the header has gone
out is dropped. -/
def ResponseWriter.WriteHeader (w : ResponseWriter) (code : Nat) : ResponseWriter :=
  if 0 < code ∧ w.status ≠ code then
    if w.written then w else { w with status := code }
  else w

/-- Go `responseWriter.Write` of one marshalled object. -/
def ResponseWriter.Write (w : ResponseWriter) (obj : JsonObject) : ResponseWriter :=
  { w with written := true, body := w.body ++ [obj] }

/-- The part of `gin.Context` the handlers touch. -/
structure Context where
  Request : Request
  Writer : ResponseWriter
  index : Int

/-- Value of gin's `abortIndex`, `math.MaxInt8 >> 1`. -/
def abortIndex : Int := 63

/-- Go `bodyAllowedForStatus`. -/
def bodyAllowedForStatus (status : Nat) : Bool :=
  if 100 ≤ status ∧ status ≤ 199 then false
  else if status = 204 then false
  else if status = 304 then false
  else true

/-- Go `(*Context).JSON`: set the status, then write the object unless the
status forbids a body. -/
def Context.JSON (c : Context) (code : Nat) (obj : JsonObject) : Context :=
  let w := c.Writer.WriteHeader code
  if bodyAllowedForStatus code then { c with Writer := w.Write obj }
  else { c with Writer := { w with written := true } }

/-- Go `(*Context).Abort`. -/
def Context.Abort (c : Context) : Context := { c with index := abortIndex }

/-- Go `(*Context).IsAborted`. -/
def Context.IsAborted (c : Context) : Bool := decide (abortIndex ≤ c.index)

/-- Go `(*Context).AbortWithStatusJSON`. -/
def Context.AbortWithStatusJSON (c : Context) (code : Nat) (obj : JsonObject) : Context :=
  c.Abort.JSON code obj

/-- Go `(*Context).GetHeader`. -/
def Context.GetHeader (c : Context) (key : String) : String :=
  c.Request.Header.Get key

/-- Go `(*Context).ClientIP`. -/
def Context.ClientIP (c : Context) : String := c.Request.ClientIP

/-- Go `(*Context).PostForm`: the first value of the form field, `""` when
there is none. -/
def Context.PostForm (c : Context) (key : String) : String :=
  match c.Request.MultipartForm with
  | .error _ => ""
  | .ok form =>
    match form.Value.lookup key with
    | some (v :: _) => v
    | _ => ""

/-! ## The world around a request, and the handler chain -/

/-- A `s3.PutObjectInput`. -/
structure PutObjectInput where
  Bucket : String
  Key : String
  Body : Bytes
  ContentType : String
  ContentLength : Int
  deriving DecidableEq

/-- The `*s3.S3` client: `PutObject` answers a write with `nil` (`none`) or
an error. -/
structure S3 where
  PutObject : PutObjectInput → Option GoError

/-- The `AppState` of the source. -/
structure AppState where
  APIKey : String
  CDNBaseURL : String
  S3Bucket : String
  S3Client : S3

/-- The `UploadApiResponse` of the source: two optional strings. -/
structure UploadApiResponse where
  Error : Option String
  URL : Option String
  deriving DecidableEq

/-- Marshalling of an `UploadApiResponse`: the fields in declaration order,
a `nil` field left out (`omitempty`). -/
def UploadApiResponse.marshal (r : UploadApiResponse) : JsonObject :=
  (match r.Error with
    | some e => [("error", JsonValue.str e)]
    | none => []) ++
  (match r.URL with
    | some u => [("url", JsonValue.str u)]
    | none => [])

/-- One request in flight: gin's context, the storage writes issued so far
with the answer each one got, and the lines sent to the server log. -/
structure State where
  c : Context
  puts : List (PutObjectInput × Option GoError)
  log : List String

/-- A `gin.HandlerFunc`.  The first argument is what `c.Next()` does when
the handler calls it; `none` is a run that did not finish. -/
abbrev HandlerFunc := (State → Option State) → State → Option State

/-- The statement `c.index++`. -/
def State.incIndex (s : State) : State :=
  { s with c := { s.c with index := s.c.index + 1 } }

/-- The loop of Go `(*Context).Next`: while `index` is inside the chain, run
the handler at `index`, then step `index`.  A handler that calls `c.Next()`
steps `index` and enters the same loop.  Indexing the chain at a negative
`index` panics, which ends the run without a result. -/
def nextLoop (handlers : List HandlerFunc) : Nat → State → Option State
  | 0, _ => none
  | fuel + 1, s =>
    if s.c.index < handlers.length then
      if s.c.index < 0 then none
      else
        match handlers.get? s.c.index.toNat with
        | none => none
        | some h =>
          match h (fun s1 => nextLoop handlers fuel s1.incIndex) s with
          | none => none
          | some s2 => nextLoop handlers fuel s2.incIndex
    else some s

/-- Go `(*Context).Next`: step `index`, then loop. -/
def Next (handlers : List HandlerFunc) (fuel : Nat) (s : State) : Option State :=
  nextLoop handlers fuel s.incIndex

/-- The state in which gin hands a request to its chain: `index` reset to
`-1`, status 200, nothing written, no write issued, nothing logged. -/
def State.init (req : Request) : State :=
  { c := { Request := req, Writer := { status := 200, written := false, body := [] }, index := -1 },
    puts := [], log := [] }

/-- Go `(*Engine).handleHTTPRequest` on a matched route: run the chain from
the reset context. -/
def handleHTTPRequest (handlers : List HandlerFunc) (fuel : Nat) (req : Request) : Option State :=
  Next handlers fuel (State.init req)

/-! ## The handlers of `main.go` -/

/-- The handler `uploadFile(state)`. -/
def uploadFile (state : AppState) : HandlerFunc := fun _ s =>
  match s.c.Request.FormFile "data" with
  | .error _ =>
    let resp : UploadApiResponse := { Error := some "Failed to get file", URL := none }
    some { s with c := s.c.JSON 400 resp.marshal }
  | .ok (file, header) =>
    let key := s.c.PostForm "key"
    if key = "" then
      let resp : UploadApiResponse := { Error := some "Key is required", URL := none }
      some { s with c := s.c.JSON 400 resp.marshal }
    else
      match file.ReadAll with
      | .error _ =>
        let resp : UploadApiResponse := { Error := some "Failed to read file", URL := none }
        some { s with c := s.c.JSON 500 resp.marshal }
      | .ok data =>
        let uploadInput : PutObjectInput :=
          { Bucket := state.S3Bucket,
            Key := key,
            Body := data,
            ContentType := header.Header.Get "Content-Type",
            ContentLength := (data.length : Int) }
        match state.S3Client.PutObject uploadInput with
        | some err =>
          let resp : UploadApiResponse := { Error := some "Failed to upload file", URL := none }
          some { c := s.c.JSON 500 resp.marshal,
                 puts := s.puts ++ [(uploadInput, some err)],
                 log := s.log ++ ["Failed to upload file to S3: " ++ err] }
        | none =>
          let url := state.CDNBaseURL ++ "/" ++ key
          let resp : UploadApiResponse := { Error := none, URL := some url }
          some { c := s.c.JSON 200 resp.marshal,
                 puts := s.puts ++ [(uploadInput, none)],
                 log := s.log }

/-- The handler `authMiddleware(apiKey)`. -/
def authMiddleware (apiKey : String) : HandlerFunc := fun next s =>
  let providedKey := s.c.GetHeader "X-API-Key"
  if providedKey ≠ apiKey then
    let h := marshalH [("error", JsonValue.str "Unauthorized")]
    some { s with c := s.c.AbortWithStatusJSON 401 h }
  else next s

/-- The handler `IPWhiteList(whitelist)`. -/
def IPWhiteList (whitelist : GoMap Bool) : HandlerFunc := fun _ s =>
  if !(whitelist.index s.c.ClientIP) then
    let h := marshalH [("status", JsonValue.num 403),
      ("message", JsonValue.str "Permission denied")]
    some { s with c := s.c.AbortWithStatusJSON 403 h }
  else some s

/-! ## `main`: configuration and routing -/

/-- The process environment after `godotenv.Load()`. -/
abbrev Env := GoMap String

/-- Go `os.Getenv`: `""` for a variable that is not set. -/
def Getenv (env : Env) (name : String) : String :=
  match env.lookup name with
  | some v => v
  | none => ""

/-- What `main` sets up for the upload route: its locals `apiKey`,
`allowedOrigins`, `whitelist` and `state`, and the chain of the group
`authorized` ending in the handler of `PUT /api/upload`. -/
structure App where
  apiKey : String
  allowedOrigins : List String
  whitelist : GoMap Bool
  state : AppState
  authorized : List HandlerFunc

/-- The function `main`, up to `r.Run`, for a given environment and storage
client. -/
def main (env : Env) (s3Client : S3) : App :=
  let apiKey := Getenv env "API_KEY"
  let cdnBaseURL := Getenv env "CDN_BASE_URL"
  let allowedOriginsStr := Getenv env "ALLOWED_ORIGINS"
  let allowedOrigins : List String :=
    if allowedOriginsStr ≠ "" then Split allowedOriginsStr ',' else []
  let whitelistStr := Getenv env "IP_WHITELIST"
  let whitelist : GoMap Bool :=
    (Split whitelistStr ',').foldl (fun m ip => m.set ip true) []
  let s3Bucket := Getenv env "S3_BUCKET"
  let state : AppState :=
    { APIKey := apiKey, CDNBaseURL := cdnBaseURL, S3Bucket := s3Bucket, S3Client := s3Client }
  { apiKey := apiKey,
    allowedOrigins := allowedOrigins,
    whitelist := whitelist,
    state := state,
    authorized := [authMiddleware apiKey, IPWhiteList whitelist, uploadFile state] }

/-- The server answering one `PUT /api/upload`. -/
def serveUpload (env : Env) (s3Client : S3) (fuel : Nat) (req : Request) : Option State :=
  handleHTTPRequest (main env s3Client).authorized fuel req

/-! ## Vocabulary of the statements -/

/-- The storage write `uploadFile` prepares for key `key`, payload `data`
and part header `header`. -/
def uploadInputOf (state : AppState) (key : String) (data : Bytes) (header : FileHeader) :
    PutObjectInput :=
  { Bucket := state.S3Bucket, Key := key, Body := data,
    ContentType := header.Header.Get "Content-Type", ContentLength := (data.length : Int) }

/-- The state in which `uploadFile` is entered on an admitted request: the
reset context with `index` at the third handler. -/
def State.atUpload (req : Request) : State :=
  { c := { Request := req, Writer := { status := 200, written := false, body := [] }, index := 2 },
    puts := [], log := [] }

/-- The JSON object `{"error": msg}`. -/
def errorBody (msg : String) : JsonObject := [("error", JsonValue.str msg)]

/-- The JSON object `{"url": u}`. -/
def urlBody (u : String) : JsonObject := [("url", JsonValue.str u)]

/-- The JSON object `{"status":403,"message":"Permission denied"}`, its
members in the order the encoder emits them for a map. -/
def forbiddenBody : JsonObject :=
  [("message", JsonValue.str "Permission denied"), ("status", JsonValue.num 403)]

/-- The run finished, the request was answered once with status `code` and
body `obj`, and no storage write was issued. -/
def AnsweredWithoutWrite (r : Option State) (code : Nat) (obj : JsonObject) : Prop :=
  match r with
  | some s => s.c.Writer = { status := code, written := true, body := [obj] } ∧ s.puts = []
  | none => False

/-- The response carries a member named `name`. -/
def State.carries (s : State) (name : String) : Bool :=
  s.c.Writer.body.any (fun obj => (obj.lookup name).isSome)

/-! ## A sample deployment, used to instantiate the theorems -/

/-- A storage client on which every write succeeds. -/
def okS3 : S3 := { PutObject := fun _ => none }

/-- A storage client on which every write fails with the given error. -/
def failS3 (e : GoError) : S3 := { PutObject := fun _ => some e }

/-- A file part of type `image/png` that opens and reads as `b`. -/
def pngPart (b : Bytes) : FileHeader :=
  { Header := [("Content-Type", ["image/png"])], Open := .ok { ReadAll := .ok b } }

/-- A configured environment. -/
def demoEnv : Env :=
  [("API_KEY", "s3cr3t"), ("IP_WHITELIST", "10.0.0.1,10.0.0.2"),
   ("CDN_BASE_URL", "https://cdn.example.com"), ("S3_BUCKET", "bkt")]

/-- A well-formed upload of three bytes under `images/a.png`, with the right
key, from an allow-listed address. -/
def demoReq : Request :=
  { Header := [("X-Api-Key", ["s3cr3t"])],
    MultipartForm := .ok { Value := [("key", ["images/a.png"])],
                           File := [("data", [pngPart [1, 2, 3]])] },
    ClientIP := "10.0.0.1" }

/-- The sample request with a key that is not the configured one. -/
def wrongKeyReq : Request := { demoReq with Header := [("X-Api-Key", ["guess"])] }

/-- The sample request sent from an address outside the allow-list. -/
def strangerReq : Request := { demoReq with ClientIP := "192.0.2.7" }

/-- The sample request without an `X-API-Key` header. -/
def noKeyReq : Request := { demoReq with Header := [] }

/-- The sample environment with `API_KEY` not set. -/
def noKeyEnv : Env :=
  [("IP_WHITELIST", "10.0.0.1,10.0.0.2"), ("CDN_BASE_URL", "https://cdn.example.com"),
   ("S3_BUCKET", "bkt")]

/-- The sample environment with `IP_WHITELIST` not set. -/
def noListEnv : Env :=
  [("API_KEY", "s3cr3t"), ("CDN_BASE_URL", "https://cdn.example.com"), ("S3_BUCKET", "bkt")]

/-- The sample environment with an allow-list written with a blank after a
comma, an empty entry and a repeated entry. -/
def spacedEnv : Env :=
  [("API_KEY", "s3cr3t"), ("IP_WHITELIST", "10.0.0.1, 10.0.0.2,,10.0.0.1"),
   ("CDN_BASE_URL", "https://cdn.example.com"), ("S3_BUCKET", "bkt")]

/-- The sample request sent from `10.0.0.2`. -/
def secondReq : Request := { demoReq with ClientIP := "10.0.0.2" }

/-- The sample request on a connection whose address gin resolves to `""`. -/
def noAddrReq : Request := { demoReq with ClientIP := "" }

/-- The sample request with no file part. -/
def noFileReq : Request :=
  { demoReq with MultipartForm := .ok { Value := [("key", ["images/a.png"])], File := [] } }

/-- The sample request with no `key` field. -/
def noFieldReq : Request :=
  { demoReq with MultipartForm := .ok { Value := [], File := [("data", [pngPart [1, 2, 3]])] } }

/-- A file part that opens and then fails to read. -/
def brokenPart : FileHeader :=
  { Header := [("Content-Type", ["image/png"])],
    Open := .ok { ReadAll := .error "unexpected EOF" } }

/-- The sample request with a file part that fails to read. -/
def brokenReq : Request :=
  { demoReq with
    MultipartForm := .ok { Value := [("key", ["images/a.png"])],
                           File := [("data", [brokenPart])] } }

/-! ## Facts about the library layer -/

theorem canonical_api_key : CanonicalMIMEHeaderKey "X-API-Key" = "X-Api-Key" := by decide

theorem marshalH_unauthorized :
    marshalH [("error", JsonValue.str "Unauthorized")]
      = [("error", JsonValue.str "Unauthorized")] := by decide

theorem marshalH_forbidden :
    marshalH [("status", JsonValue.num 403), ("message", JsonValue.str "Permission denied")]
      = [("message", JsonValue.str "Permission denied"), ("status", JsonValue.num 403)] := by
  decide

theorem IndexByte_none (sep : Char) (s : List Char) (h : IndexByte sep s = none) : sep ∉ s := by
  induction s with
  | nil => simp
  | cons c cs ih =>
    unfold IndexByte at h
    by_cases hc : c = sep
    · simp [hc] at h
    · simp [hc] at h
      simp [ih h, Ne.symm hc]

theorem IndexByte_some (sep : Char) (s : List Char) (m : Nat) (h : IndexByte sep s = some m) :
    sep ∉ s.take m ∧ s = s.take m ++ sep :: s.drop (m + 1) := by
  induction s generalizing m with
  | nil => simp [IndexByte] at h
  | cons c cs ih =>
    unfold IndexByte at h
    by_cases hc : c = sep
    · simp [hc] at h
      subst h
      simp [hc]
    · simp [hc] at h
      obtain ⟨m1, hm1, rfl⟩ := h
      obtain ⟨h1, h2⟩ := ih m1 hm1
      refine ⟨?_, ?_⟩
      · simp [List.take, h1, Ne.symm hc]
      · simp only [List.take_succ_cons, List.drop_succ_cons, List.cons_append]
        rw [← h2]

theorem genSplit_ne_nil (sep : Char) (n : Nat) (s : List Char) : genSplit sep n s ≠ [] := by
  cases n with
  | zero => simp [genSplit]
  | succ n =>
    unfold genSplit
    split <;> simp

theorem intercalate_cons (sep : Char) (a : List Char) (l : List (List Char)) (h : l ≠ []) :
    List.intercalate [sep] (a :: l) = a ++ sep :: List.intercalate [sep] l := by
  cases l with
  | nil => exact absurd rfl h
  | cons b l => simp [List.intercalate, List.intersperse]

/-- What `genSplit` computes: joining the segments with the separator gives
the string back, no segment holds the separator, and there is one segment
more than there are separators. -/
theorem genSplit_spec (sep : Char) (n : Nat) (s : List Char) (hn : s.count sep = n) :
    List.intercalate [sep] (genSplit sep n s) = s
      ∧ (∀ seg ∈ genSplit sep n s, sep ∉ seg)
      ∧ (genSplit sep n s).length = n + 1 := by
  induction n generalizing s with
  | zero =>
    have : sep ∉ s := List.count_eq_zero.mp hn
    simp [genSplit, List.intercalate, this]
  | succ n ih =>
    unfold genSplit
    cases hi : IndexByte sep s with
    | none =>
      have h0 := IndexByte_none sep s hi
      rw [List.count_eq_zero.mpr h0] at hn
      cases hn
    | some m =>
      obtain ⟨h1, h2⟩ := IndexByte_some sep s m hi
      have hc : (s.drop (m + 1)).count sep = n := by
        have h3 := congrArg (List.count sep) h2
        rw [List.count_append, List.count_cons_self, List.count_eq_zero.mpr h1, hn] at h3
        omega
      obtain ⟨j1, j2, j3⟩ := ih (s.drop (m + 1)) hc
      refine ⟨?_, ?_, ?_⟩
      · show List.intercalate [sep] (s.take m :: genSplit sep n (s.drop (m + 1))) = s
        rw [intercalate_cons sep _ _ (genSplit_ne_nil sep n _), j1]
        exact h2.symm
      · intro seg hseg
        rcases List.mem_cons.mp hseg with h | h
        · rw [h]; exact h1
        · exact j2 seg h
      · simp [j3]

/-- The same for `Split`, on the characters of the strings. -/
theorem Split_spec (s : String) (sep : Char) :
    List.intercalate [sep] ((Split s sep).map String.toList) = s.toList
      ∧ (∀ seg ∈ Split s sep, sep ∉ seg.toList)
      ∧ (Split s sep).length = s.toList.count sep + 1 := by
  obtain ⟨h1, h2, h3⟩ := genSplit_spec sep (s.toList.count sep) s.toList rfl
  have hmap : (Split s sep).map String.toList = genSplit sep (s.toList.count sep) s.toList := by
    unfold Split
    rw [List.map_map]
    exact List.map_id _
  refine ⟨by rw [hmap]; exact h1, ?_, by rw [← h3, ← hmap, List.length_map]⟩
  intro seg hseg
  apply h2
  rw [← hmap]
  exact List.mem_map_of_mem _ hseg

theorem cut_unique (c : Char) (x y r1 r2 : List Char) (hx : c ∉ x) (hy : c ∉ y)
    (h : x ++ c :: r1 = y ++ c :: r2) : x = y ∧ r1 = r2 := by
  induction x generalizing y with
  | nil =>
    cases y with
    | nil => exact ⟨rfl, by simpa using h⟩
    | cons d y1 =>
      simp only [List.nil_append, List.cons_append, List.cons.injEq] at h
      exact absurd (by rw [h.1]; exact List.mem_cons_self _ _) hy
  | cons a x1 ih =>
    cases y with
    | nil =>
      simp only [List.nil_append, List.cons_append, List.cons.injEq] at h
      exact absurd (by rw [← h.1]; exact List.mem_cons_self _ _) hx
    | cons d y1 =>
      simp only [List.cons_append, List.cons.injEq] at h
      obtain ⟨h1, h2⟩ := ih y1 (fun hm => hx (List.mem_cons_of_mem _ hm))
        (fun hm => hy (List.mem_cons_of_mem _ hm)) h.2
      exact ⟨by rw [h.1, h1], h2⟩

/-- A string is cut into separator-free segments in one way only: two
non-empty lists of segments without the separator that join to the same
string are equal. -/
theorem intercalate_unique (c : Char) (l1 l2 : List (List Char))
    (n1 : l1 ≠ []) (n2 : l2 ≠ []) (f1 : ∀ x ∈ l1, c ∉ x) (f2 : ∀ x ∈ l2, c ∉ x)
    (h : List.intercalate [c] l1 = List.intercalate [c] l2) : l1 = l2 := by
  induction l1 generalizing l2 with
  | nil => exact absurd rfl n1
  | cons x t1 ih =>
    cases l2 with
    | nil => exact absurd rfl n2
    | cons y t2 =>
      have hx : c ∉ x := f1 x (List.mem_cons_self _ _)
      have hy : c ∉ y := f2 y (List.mem_cons_self _ _)
      have one : ∀ z : List Char, List.intercalate [c] [z] = z := by
        intro z
        simp [List.intercalate]
      by_cases e1 : t1 = []
      · subst e1
        by_cases e2 : t2 = []
        · subst e2
          rw [one, one] at h
          rw [h]
        · rw [one, intercalate_cons c y t2 e2] at h
          exact absurd (by rw [h]; simp) hx
      · by_cases e2 : t2 = []
        · subst e2
          rw [one, intercalate_cons c x t1 e1] at h
          exact absurd (by rw [← h]; simp) hy
        · rw [intercalate_cons c x t1 e1, intercalate_cons c y t2 e2] at h
          obtain ⟨h1, h2⟩ := cut_unique c x y _ _ hx hy h
          rw [h1, ih t2 e1 e2 (fun z hz => f1 z (List.mem_cons_of_mem _ hz))
            (fun z hz => f2 z (List.mem_cons_of_mem _ hz)) h2]

/-- The segments `Split` returns are the only way to cut the string:
any non-empty list of strings without the separator that joins to `s` with
the separator is `Split s sep`. -/
theorem Split_unique (s : String) (sep : Char) (segs : List String) (hne : segs ≠ [])
    (hfree : ∀ seg ∈ segs, sep ∉ seg.toList)
    (hjoin : List.intercalate [sep] (segs.map String.toList) = s.toList) :
    Split s sep = segs := by
  obtain ⟨h1, h2, h3⟩ := Split_spec s sep
  have hne2 : (Split s sep).map String.toList ≠ [] := by
    intro h0
    have := congrArg List.length h0
    rw [List.length_map, h3] at this
    simp at this
  have hmaps : (Split s sep).map String.toList = segs.map String.toList := by
    apply intercalate_unique sep _ _ hne2 (by simpa using hne)
    · intro x hx
      obtain ⟨seg, hseg, rfl⟩ := List.mem_map.mp hx
      exact h2 seg hseg
    · intro x hx
      obtain ⟨seg, hseg, rfl⟩ := List.mem_map.mp hx
      exact hfree seg hseg
    · rw [h1, hjoin]
  have hinj : Function.Injective String.toList := by
    intro a b hab
    exact String.ext hab
  exact (List.map_injective_iff.mpr hinj) hmaps

theorem lookup_filter_ne {T : Type} (m : GoMap T) (k a : String) (h : a ≠ k) :
    (m.filter (fun e => e.1 != k)).lookup a = m.lookup a := by
  induction m with
  | nil => rfl
  | cons e m ih =>
    obtain ⟨k1, v1⟩ := e
    by_cases hk : k1 = k
    · subst hk
      have : (a == k1) = false := by simpa using h
      simp [List.filter, List.lookup, this, ih]
    · have hk2 : (k1 != k) = true := by simpa using hk
      simp only [List.filter, hk2, List.lookup, ih]

theorem index_set (m : GoMap Bool) (k a : String) (v : Bool) :
    (GoMap.set m k v).index a = if a = k then v else m.index a := by
  unfold GoMap.set GoMap.index
  by_cases h : a = k
  · subst h
    simp [List.lookup]
  · have hb : (a == k) = false := by simpa using h
    simp only [List.lookup, hb, if_neg h, lookup_filter_ne m k a h]

theorem index_foldl_set (segs : List String) (m : GoMap Bool) (a : String) :
    (segs.foldl (fun m ip => GoMap.set m ip true) m).index a = true
      ↔ a ∈ segs ∨ m.index a = true := by
  induction segs generalizing m with
  | nil => simp
  | cons x xs ih =>
    rw [List.foldl_cons, ih, index_set]
    by_cases h : a = x
    · simp [h]
    · simp [h]

/-- The allow-list `main` builds holds exactly the segments of `IP_WHITELIST`. -/
theorem whitelist_index (env : Env) (s3Client : S3) (a : String) :
    (main env s3Client).whitelist.index a = true
      ↔ a ∈ Split (Getenv env "IP_WHITELIST") ',' := by
  simp only [main]
  rw [index_foldl_set]
  simp [GoMap.index]


/-! ## Facts about the handler chain -/

theorem nextLoop_run (handlers : List HandlerFunc) (fuel : Nat) (s : State) (i : Nat)
    (h : HandlerFunc) (hi : s.c.index = (i : Int)) (hh : handlers.get? i = some h) :
    nextLoop handlers (fuel + 1) s
      = match h (fun s1 => nextLoop handlers fuel s1.incIndex) s with
        | none => none
        | some s2 => nextLoop handlers fuel s2.incIndex := by
  have hlt : i < handlers.length := by
    rcases Nat.lt_or_ge i handlers.length with h1 | h1
    · exact h1
    · rw [List.get?_eq_none.mpr h1] at hh
      cases hh
  have hlt2 : s.c.index < (handlers.length : Int) := by rw [hi]; exact_mod_cast hlt
  have hnn : ¬ s.c.index < 0 := by rw [hi]; omega
  rw [nextLoop, if_pos hlt2, if_neg hnn, hi, Int.toNat_ofNat, hh]

theorem nextLoop_exit (handlers : List HandlerFunc) (fuel : Nat) (s : State)
    (hi : (handlers.length : Int) ≤ s.c.index) :
    nextLoop handlers (fuel + 1) s = some s := by
  rw [nextLoop, if_neg (by omega)]

theorem JSON_index (c : Context) (code : Nat) (obj : JsonObject) :
    (c.JSON code obj).index = c.index := by
  unfold Context.JSON
  split <;> rfl

theorem JSON_Writer (c : Context) (code : Nat) (obj : JsonObject) (hpos : 0 < code)
    (hallow : bodyAllowedForStatus code = true) :
    (c.JSON code obj).Writer.body = c.Writer.body ++ [obj]
      ∧ (c.JSON code obj).Writer.status
          = (if c.Writer.written = true then c.Writer.status else code) := by
  simp only [Context.JSON, hallow, ResponseWriter.WriteHeader, ResponseWriter.Write, if_true]
  by_cases hw : c.Writer.written = true <;> by_cases hst : c.Writer.status = code <;>
    simp [hw, hst, hpos]

theorem JSON_Request (c : Context) (code : Nat) (obj : JsonObject) :
    (c.JSON code obj).Request = c.Request := by
  unfold Context.JSON
  split <;> rfl

theorem upload_no_file (state : AppState) (next : State → Option State) (s : State)
    (e : GoError) (hfile : s.c.Request.FormFile "data" = .error e) :
    uploadFile state next s
      = some { s with c := s.c.JSON 400 [("error", JsonValue.str "Failed to get file")] } := by
  simp [uploadFile, hfile, UploadApiResponse.marshal]

theorem upload_no_key (state : AppState) (next : State → Option State) (s : State)
    (file : File) (header : FileHeader)
    (hfile : s.c.Request.FormFile "data" = .ok (file, header))
    (hkey : s.c.PostForm "key" = "") :
    uploadFile state next s
      = some { s with c := s.c.JSON 400 [("error", JsonValue.str "Key is required")] } := by
  simp [uploadFile, hfile, hkey, UploadApiResponse.marshal]

theorem upload_read_fail (state : AppState) (next : State → Option State) (s : State)
    (file : File) (header : FileHeader) (e : GoError)
    (hfile : s.c.Request.FormFile "data" = .ok (file, header))
    (hkey : s.c.PostForm "key" ≠ "")
    (hread : file.ReadAll = .error e) :
    uploadFile state next s
      = some { s with c := s.c.JSON 500 [("error", JsonValue.str "Failed to read file")] } := by
  simp [uploadFile, hfile, hkey, hread, UploadApiResponse.marshal]

theorem upload_put_fail (state : AppState) (next : State → Option State) (s : State)
    (file : File) (header : FileHeader) (data : Bytes) (err : GoError)
    (hfile : s.c.Request.FormFile "data" = .ok (file, header))
    (hkey : s.c.PostForm "key" ≠ "")
    (hread : file.ReadAll = .ok data)
    (hput : state.S3Client.PutObject (uploadInputOf state (s.c.PostForm "key") data header)
      = some err) :
    uploadFile state next s
      = some { c := s.c.JSON 500 [("error", JsonValue.str "Failed to upload file")],
               puts := s.puts ++ [(uploadInputOf state (s.c.PostForm "key") data header, some err)],
               log := s.log ++ ["Failed to upload file to S3: " ++ err] } := by
  unfold uploadInputOf at hput
  simp [uploadFile, hfile, hkey, hread, hput, UploadApiResponse.marshal, uploadInputOf]

theorem upload_put_ok (state : AppState) (next : State → Option State) (s : State)
    (file : File) (header : FileHeader) (data : Bytes)
    (hfile : s.c.Request.FormFile "data" = .ok (file, header))
    (hkey : s.c.PostForm "key" ≠ "")
    (hread : file.ReadAll = .ok data)
    (hput : state.S3Client.PutObject (uploadInputOf state (s.c.PostForm "key") data header)
      = none) :
    uploadFile state next s
      = some { c := s.c.JSON 200
                 [("url", JsonValue.str (state.CDNBaseURL ++ "/" ++ s.c.PostForm "key"))],
               puts := s.puts ++ [(uploadInputOf state (s.c.PostForm "key") data header, none)],
               log := s.log } := by
  unfold uploadInputOf at hput
  simp [uploadFile, hfile, hkey, hread, hput, UploadApiResponse.marshal, uploadInputOf]

/-- The handler `uploadFile` always answers, never calls `c.Next()` and
leaves `index` alone. -/
theorem uploadFile_returns (state : AppState) (next : State → Option State) (s : State) :
    ∃ s1, uploadFile state next s = some s1 ∧ s1.c.index = s.c.index := by
  cases hf : s.c.Request.FormFile "data" with
  | error e => exact ⟨_, upload_no_file state next s e hf, JSON_index _ _ _⟩
  | ok fh =>
    obtain ⟨file, header⟩ := fh
    by_cases hk : s.c.PostForm "key" = ""
    · exact ⟨_, upload_no_key state next s file header hf hk, JSON_index _ _ _⟩
    · cases hr : file.ReadAll with
      | error e =>
        exact ⟨_, upload_read_fail state next s file header e hf hk hr, JSON_index _ _ _⟩
      | ok data =>
        cases hp : state.S3Client.PutObject
            (uploadInputOf state (s.c.PostForm "key") data header) with
        | some err =>
          exact ⟨_, upload_put_fail state next s file header data err hf hk hr hp,
            JSON_index _ _ _⟩
        | none =>
          exact ⟨_, upload_put_ok state next s file header data hf hk hr hp, JSON_index _ _ _⟩

theorem uploadFile_next (state : AppState) (n1 n2 : State → Option State) (s : State) :
    uploadFile state n1 s = uploadFile state n2 s := rfl

/-- A rejected key: `authMiddleware` aborts with 401 and no later handler of
the chain, whatever it is, takes part in the result. -/
theorem auth_reject (apiKey : String) (rest : List HandlerFunc) (fuel : Nat) (req : Request)
    (hlen : rest.length + 1 < 63) (hkey : req.Header.Get "X-API-Key" ≠ apiKey) :
    handleHTTPRequest (authMiddleware apiKey :: rest) (fuel + 2) req
      = some { c := { Request := req,
                      Writer := { status := 401, written := true,
                                  body := [[("error", JsonValue.str "Unauthorized")]] },
                      index := 64 },
               puts := [], log := [] } := by
  unfold handleHTTPRequest Next
  rw [nextLoop_run (authMiddleware apiKey :: _) _ _ 0 (authMiddleware apiKey) rfl rfl]
  have h1 : authMiddleware apiKey
      (fun s1 => nextLoop (authMiddleware apiKey :: rest) (fuel + 1) s1.incIndex)
      (State.init req).incIndex
      = some { c := { Request := req,
                      Writer := { status := 401, written := true,
                                  body := [[("error", JsonValue.str "Unauthorized")]] },
                      index := 63 },
               puts := [], log := [] } := by
    simp [authMiddleware, State.init, State.incIndex, Context.GetHeader, hkey,
      Context.AbortWithStatusJSON, Context.Abort, Context.JSON, bodyAllowedForStatus,
      ResponseWriter.WriteHeader, ResponseWriter.Write, marshalH_unauthorized, abortIndex]
  rw [h1]
  simp only []
  rw [nextLoop_exit]
  · rfl
  · simp [State.incIndex]; omega

/-- An accepted key from an address outside the allow-list: `IPWhiteList`
aborts with 403 and no later handler of the chain takes part in the result. -/
theorem ip_reject (apiKey : String) (whitelist : GoMap Bool) (rest : List HandlerFunc)
    (fuel : Nat) (req : Request) (hlen : rest.length + 2 < 63)
    (hkey : req.Header.Get "X-API-Key" = apiKey)
    (hip : whitelist.index req.ClientIP = false) :
    handleHTTPRequest (authMiddleware apiKey :: IPWhiteList whitelist :: rest) (fuel + 3) req
      = some { c := { Request := req,
                      Writer := { status := 403, written := true,
                                  body := [[("message", JsonValue.str "Permission denied"),
                                            ("status", JsonValue.num 403)]] },
                      index := 65 },
               puts := [], log := [] } := by
  unfold handleHTTPRequest Next
  rw [nextLoop_run (authMiddleware apiKey :: _) _ _ 0 (authMiddleware apiKey) rfl rfl]
  have h0 : authMiddleware apiKey
      (fun s1 => nextLoop (authMiddleware apiKey :: IPWhiteList whitelist :: rest) (fuel + 2)
        s1.incIndex) (State.init req).incIndex
      = nextLoop (authMiddleware apiKey :: IPWhiteList whitelist :: rest) (fuel + 2)
          (State.init req).incIndex.incIndex := by
    simp [authMiddleware, State.init, State.incIndex, Context.GetHeader, hkey]
  rw [h0, nextLoop_run (_ :: IPWhiteList whitelist :: _) _ _ 1 (IPWhiteList whitelist) rfl rfl]
  have h1 : IPWhiteList whitelist
      (fun s1 => nextLoop (authMiddleware apiKey :: IPWhiteList whitelist :: rest) (fuel + 1)
        s1.incIndex) (State.init req).incIndex.incIndex
      = some { c := { Request := req,
                      Writer := { status := 403, written := true,
                                  body := [[("message", JsonValue.str "Permission denied"),
                                            ("status", JsonValue.num 403)]] },
                      index := 63 },
               puts := [], log := [] } := by
    simp [IPWhiteList, State.init, State.incIndex, Context.ClientIP, hip,
      Context.AbortWithStatusJSON, Context.Abort, Context.JSON, bodyAllowedForStatus,
      ResponseWriter.WriteHeader, ResponseWriter.Write, marshalH_forbidden, abortIndex]
  rw [h1]
  simp only []
  rw [nextLoop_exit _ _ _ (by simp [State.incIndex]; omega)]
  simp only []
  rw [nextLoop_exit _ _ _ (by simp [State.incIndex]; omega)]
  rfl

/-- An accepted key from an allow-listed address: the chain of `main` runs
`uploadFile` on the untouched context, and only steps `index` afterwards. -/
theorem chain_admitted (apiKey : String) (whitelist : GoMap Bool) (state : AppState)
    (fuel : Nat) (req : Request)
    (hkey : req.Header.Get "X-API-Key" = apiKey)
    (hip : whitelist.index req.ClientIP = true) :
    handleHTTPRequest [authMiddleware apiKey, IPWhiteList whitelist, uploadFile state]
        (fuel + 4) req
      = (uploadFile state (fun s => some s) (State.atUpload req)).map
          (fun s => s.incIndex.incIndex) := by
  obtain ⟨s1, hs1, hidx⟩ := uploadFile_returns state (fun s => some s) (State.atUpload req)
  unfold handleHTTPRequest Next
  rw [nextLoop_run (authMiddleware apiKey :: _) _ _ 0 (authMiddleware apiKey) rfl rfl]
  have h0 : authMiddleware apiKey
      (fun s1 => nextLoop [authMiddleware apiKey, IPWhiteList whitelist, uploadFile state]
        (fuel + 3) s1.incIndex) (State.init req).incIndex
      = nextLoop [authMiddleware apiKey, IPWhiteList whitelist, uploadFile state] (fuel + 3)
          (State.init req).incIndex.incIndex := by
    simp [authMiddleware, State.init, State.incIndex, Context.GetHeader, hkey]
  rw [h0, nextLoop_run (_ :: IPWhiteList whitelist :: _) _ _ 1 (IPWhiteList whitelist) rfl rfl]
  have h1 : IPWhiteList whitelist
      (fun s1 => nextLoop [authMiddleware apiKey, IPWhiteList whitelist, uploadFile state]
        (fuel + 2) s1.incIndex) (State.init req).incIndex.incIndex
      = some (State.init req).incIndex.incIndex := by
    simp [IPWhiteList, State.init, State.incIndex, Context.ClientIP, hip]
  rw [h1]
  simp only []
  have h2 : (State.init req).incIndex.incIndex.incIndex = State.atUpload req := rfl
  rw [h2, nextLoop_run [_, _, uploadFile state] _ _ 2 (uploadFile state) rfl rfl,
    uploadFile_next state _ (fun s => some s), hs1]
  simp only [Option.map_some']
  rw [nextLoop_exit _ _ _ (by simp [State.incIndex, hidx, State.atUpload])]
  simp only []
  rw [nextLoop_exit _ _ _ (by simp [State.incIndex, hidx, State.atUpload])]

/-- The address check is a lookup: it passes the request on untouched when
`whitelist[ClientIP]` is true and aborts with 403 otherwise. -/
theorem IPWhiteList_eq (whitelist : GoMap Bool) (next : State → Option State) (s : State) :
    IPWhiteList whitelist next s
      = if whitelist.index s.c.ClientIP = true then some s
        else some { s with c := s.c.AbortWithStatusJSON 403 forbiddenBody } := by
  unfold IPWhiteList
  rw [marshalH_forbidden]
  cases whitelist.index s.c.ClientIP <;> simp [forbiddenBody]

/-- With `IP_WHITELIST` empty or not set, the allow-list `main` builds reads
true at the empty string and nowhere else. -/
theorem empty_list_index (env : Env) (s3Client : S3) (a : String)
    (hlist : Getenv env "IP_WHITELIST" = "") :
    (main env s3Client).whitelist.index a = true ↔ a = "" := by
  rw [whitelist_index, hlist]
  have h : Split "" ',' = [""] := by decide
  rw [h]
  simp

/-- An admitted request, seen from `main`: the answer is that of
`uploadFile` entered on the untouched context. -/
theorem serve_admitted (env : Env) (s3Client : S3) (fuel : Nat) (req : Request)
    (hkey : req.Header.Get "X-API-Key" = Getenv env "API_KEY")
    (hip : req.ClientIP ∈ Split (Getenv env "IP_WHITELIST") ',') :
    serveUpload env s3Client (fuel + 4) req
      = (uploadFile (main env s3Client).state (fun s => some s) (State.atUpload req)).map
          (fun s => s.incIndex.incIndex) :=
  chain_admitted (Getenv env "API_KEY") (main env s3Client).whitelist (main env s3Client).state
    fuel req hkey ((whitelist_index env s3Client req.ClientIP).mpr hip)

/-- What `FormFile("data")` and `PostForm("key")` return on a form that
holds a part `data` that opens and a field `key`. -/
theorem form_reads (req : Request) (form : Form) (fh : FileHeader) (fhs : List FileHeader)
    (file : File) (k : String) (ks : List String)
    (hform : req.MultipartForm = .ok form)
    (hpart : form.File.lookup "data" = some (fh :: fhs))
    (hopen : fh.Open = .ok file)
    (hfield : form.Value.lookup "key" = some (k :: ks)) :
    req.FormFile "data" = .ok (file, fh) ∧ (State.init req).c.PostForm "key" = k := by
  simp [State.init, Request.FormFile, Context.PostForm, hform, hpart, hopen, hfield]

theorem serve_no_file (env : Env) (s3Client : S3) (fuel : Nat) (req : Request) (e : GoError)
    (hkey : req.Header.Get "X-API-Key" = Getenv env "API_KEY")
    (hip : req.ClientIP ∈ Split (Getenv env "IP_WHITELIST") ',')
    (hfile : req.FormFile "data" = .error e) :
    serveUpload env s3Client (fuel + 4) req
      = some { c := { Request := req,
                      Writer := { status := 400, written := true,
                                  body := [errorBody "Failed to get file"] },
                      index := 4 },
               puts := [], log := [] } := by
  rw [serve_admitted env s3Client fuel req hkey hip,
    upload_no_file _ _ (State.atUpload req) e hfile]
  simp [State.incIndex, State.atUpload, Context.JSON, bodyAllowedForStatus,
    ResponseWriter.WriteHeader, ResponseWriter.Write, errorBody]

theorem serve_no_key (env : Env) (s3Client : S3) (fuel : Nat) (req : Request)
    (file : File) (header : FileHeader)
    (hkey : req.Header.Get "X-API-Key" = Getenv env "API_KEY")
    (hip : req.ClientIP ∈ Split (Getenv env "IP_WHITELIST") ',')
    (hfile : req.FormFile "data" = .ok (file, header))
    (hfield : (State.init req).c.PostForm "key" = "") :
    serveUpload env s3Client (fuel + 4) req
      = some { c := { Request := req,
                      Writer := { status := 400, written := true,
                                  body := [errorBody "Key is required"] },
                      index := 4 },
               puts := [], log := [] } := by
  rw [serve_admitted env s3Client fuel req hkey hip,
    upload_no_key _ _ (State.atUpload req) file header hfile hfield]
  simp [State.incIndex, State.atUpload, Context.JSON, bodyAllowedForStatus,
    ResponseWriter.WriteHeader, ResponseWriter.Write, errorBody]

theorem serve_read_fail (env : Env) (s3Client : S3) (fuel : Nat) (req : Request)
    (file : File) (header : FileHeader) (e : GoError)
    (hkey : req.Header.Get "X-API-Key" = Getenv env "API_KEY")
    (hip : req.ClientIP ∈ Split (Getenv env "IP_WHITELIST") ',')
    (hfile : req.FormFile "data" = .ok (file, header))
    (hfield : (State.init req).c.PostForm "key" ≠ "")
    (hread : file.ReadAll = .error e) :
    serveUpload env s3Client (fuel + 4) req
      = some { c := { Request := req,
                      Writer := { status := 500, written := true,
                                  body := [errorBody "Failed to read file"] },
                      index := 4 },
               puts := [], log := [] } := by
  rw [serve_admitted env s3Client fuel req hkey hip,
    upload_read_fail _ _ (State.atUpload req) file header e hfile hfield hread]
  simp [State.incIndex, State.atUpload, Context.JSON, bodyAllowedForStatus,
    ResponseWriter.WriteHeader, ResponseWriter.Write, errorBody]

theorem serve_put_fail (env : Env) (s3Client : S3) (fuel : Nat) (req : Request)
    (file : File) (header : FileHeader) (data : Bytes) (k : String) (err : GoError)
    (hkey : req.Header.Get "X-API-Key" = Getenv env "API_KEY")
    (hip : req.ClientIP ∈ Split (Getenv env "IP_WHITELIST") ',')
    (hfile : req.FormFile "data" = .ok (file, header))
    (hfield : (State.init req).c.PostForm "key" = k) (hk : k ≠ "")
    (hread : file.ReadAll = .ok data)
    (hput : s3Client.PutObject
        { Bucket := Getenv env "S3_BUCKET", Key := k, Body := data,
          ContentType := header.Header.Get "Content-Type", ContentLength := (data.length : Int) }
      = some err) :
    serveUpload env s3Client (fuel + 4) req
      = some { c := { Request := req,
                      Writer := { status := 500, written := true,
                                  body := [errorBody "Failed to upload file"] },
                      index := 4 },
               puts := [({ Bucket := Getenv env "S3_BUCKET", Key := k, Body := data,
                           ContentType := header.Header.Get "Content-Type",
                           ContentLength := (data.length : Int) }, some err)],
               log := ["Failed to upload file to S3: " ++ err] } := by
  have hpost : (State.atUpload req).c.PostForm "key" = k := hfield
  have hne : (State.atUpload req).c.PostForm "key" ≠ "" := by rw [hpost]; exact hk
  have hput2 : (main env s3Client).state.S3Client.PutObject
      (uploadInputOf (main env s3Client).state ((State.atUpload req).c.PostForm "key") data header)
        = some err := by
    rw [hpost]; exact hput
  rw [serve_admitted env s3Client fuel req hkey hip,
    upload_put_fail _ _ (State.atUpload req) file header data err hfile hne hread hput2, hpost]
  simp [State.incIndex, State.atUpload, Context.JSON, bodyAllowedForStatus,
    ResponseWriter.WriteHeader, ResponseWriter.Write, errorBody, uploadInputOf, main]

theorem serve_put_ok (env : Env) (s3Client : S3) (fuel : Nat) (req : Request)
    (file : File) (header : FileHeader) (data : Bytes) (k : String)
    (hkey : req.Header.Get "X-API-Key" = Getenv env "API_KEY")
    (hip : req.ClientIP ∈ Split (Getenv env "IP_WHITELIST") ',')
    (hfile : req.FormFile "data" = .ok (file, header))
    (hfield : (State.init req).c.PostForm "key" = k) (hk : k ≠ "")
    (hread : file.ReadAll = .ok data)
    (hput : s3Client.PutObject
        { Bucket := Getenv env "S3_BUCKET", Key := k, Body := data,
          ContentType := header.Header.Get "Content-Type", ContentLength := (data.length : Int) }
      = none) :
    serveUpload env s3Client (fuel + 4) req
      = some { c := { Request := req,
                      Writer := { status := 200, written := true,
                                  body := [urlBody (Getenv env "CDN_BASE_URL" ++ "/" ++ k)] },
                      index := 4 },
               puts := [({ Bucket := Getenv env "S3_BUCKET", Key := k, Body := data,
                           ContentType := header.Header.Get "Content-Type",
                           ContentLength := (data.length : Int) }, none)],
               log := [] } := by
  have hpost : (State.atUpload req).c.PostForm "key" = k := hfield
  have hne : (State.atUpload req).c.PostForm "key" ≠ "" := by rw [hpost]; exact hk
  have hput2 : (main env s3Client).state.S3Client.PutObject
      (uploadInputOf (main env s3Client).state ((State.atUpload req).c.PostForm "key") data header)
        = none := by
    rw [hpost]; exact hput
  rw [serve_admitted env s3Client fuel req hkey hip,
    upload_put_ok _ _ (State.atUpload req) file header data hfile hne hread hput2, hpost]
  simp [State.incIndex, State.atUpload, Context.JSON, bodyAllowedForStatus,
    ResponseWriter.WriteHeader, ResponseWriter.Write, urlBody, uploadInputOf, main]

/-! ## The access guard -/

/-- C1: a request to `PUT /api/upload` whose `X-API-Key` value differs from
the configured secret is answered 401 with body `{"error":"Unauthorized"}`
whatever its client address; the chain is aborted, no storage write is issued
and nothing is logged, and the outcome is the same whichever handlers follow
`authMiddleware` in the chain, so neither the address check nor the upload
handler ran. -/
theorem C1_wrong_key_unauthorized (env : Env) (s3Client : S3) (req : Request) (fuel : Nat)
    (hkey : req.Header.Get "X-API-Key" ≠ Getenv env "API_KEY") :
    ∃ s, serveUpload env s3Client (fuel + 2) req = some s
      ∧ s.c.Writer = { status := 401, written := true, body := [errorBody "Unauthorized"] }
      ∧ s.c.IsAborted = true
      ∧ s.puts = [] ∧ s.log = []
      ∧ ∀ rest : List HandlerFunc, rest.length + 1 < 63 →
          handleHTTPRequest (authMiddleware (Getenv env "API_KEY") :: rest) (fuel + 2) req
            = some s := by
  refine ⟨_, auth_reject (Getenv env "API_KEY") _ fuel req (by simp) hkey, rfl,
    by simp [Context.IsAborted, abortIndex],
    rfl, rfl, ?_⟩
  intro rest hlen
  exact auth_reject (Getenv env "API_KEY") rest fuel req hlen hkey

/-- C1 on the sample request sent with the key `guess`. -/
theorem C1_wrong_key_unauthorized_witness :
    wrongKeyReq.Header.Get "X-API-Key" ≠ Getenv demoEnv "API_KEY"
      ∧ ∃ s, serveUpload demoEnv okS3 (0 + 2) wrongKeyReq = some s
        ∧ s.c.Writer = { status := 401, written := true, body := [errorBody "Unauthorized"] }
        ∧ s.c.IsAborted = true
        ∧ s.puts = [] ∧ s.log = []
        ∧ ∀ rest : List HandlerFunc, rest.length + 1 < 63 →
            handleHTTPRequest (authMiddleware (Getenv demoEnv "API_KEY") :: rest) (0 + 2)
              wrongKeyReq = some s :=
  ⟨by decide, C1_wrong_key_unauthorized demoEnv okS3 wrongKeyReq 0 (by decide)⟩

/-- C2: a request to `PUT /api/upload` with the configured key, from a
resolved client address that is none of the entries of the allow-list, is
answered 403 with the JSON object of members `status` 403 and `message`
`"Permission denied"` (the encoder emits `message` first); the chain is
aborted, no storage write is issued, and the outcome is the same whichever
handlers follow the address check, so the upload handler did not run. -/
theorem C2_stranger_forbidden (env : Env) (s3Client : S3) (req : Request) (fuel : Nat)
    (hkey : req.Header.Get "X-API-Key" = Getenv env "API_KEY")
    (hip : req.ClientIP ∉ Split (Getenv env "IP_WHITELIST") ',') :
    ∃ s, serveUpload env s3Client (fuel + 3) req = some s
      ∧ s.c.Writer = { status := 403, written := true, body := [forbiddenBody] }
      ∧ s.c.IsAborted = true
      ∧ s.puts = [] ∧ s.log = []
      ∧ ∀ rest : List HandlerFunc, rest.length + 2 < 63 →
          handleHTTPRequest
              (authMiddleware (Getenv env "API_KEY")
                :: IPWhiteList (main env s3Client).whitelist :: rest) (fuel + 3) req
            = some s := by
  have hidx : (main env s3Client).whitelist.index req.ClientIP = false := by
    cases h : (main env s3Client).whitelist.index req.ClientIP with
    | false => rfl
    | true => exact absurd ((whitelist_index env s3Client req.ClientIP).mp h) hip
  refine ⟨_, ip_reject (Getenv env "API_KEY") (main env s3Client).whitelist _ fuel req (by simp)
    hkey hidx, rfl,
    by simp [Context.IsAborted, abortIndex], rfl, rfl, ?_⟩
  intro rest hlen
  exact ip_reject (Getenv env "API_KEY") (main env s3Client).whitelist rest fuel req hlen hkey hidx

/-- C2 on the sample request sent from `192.0.2.7`. -/
theorem C2_stranger_forbidden_witness :
    strangerReq.Header.Get "X-API-Key" = Getenv demoEnv "API_KEY"
      ∧ strangerReq.ClientIP ∉ Split (Getenv demoEnv "IP_WHITELIST") ','
      ∧ ∃ s, serveUpload demoEnv okS3 (0 + 3) strangerReq = some s
        ∧ s.c.Writer = { status := 403, written := true, body := [forbiddenBody] }
        ∧ s.c.IsAborted = true
        ∧ s.puts = [] ∧ s.log = []
        ∧ ∀ rest : List HandlerFunc, rest.length + 2 < 63 →
            handleHTTPRequest
                (authMiddleware (Getenv demoEnv "API_KEY")
                  :: IPWhiteList (main demoEnv okS3).whitelist :: rest) (0 + 3) strangerReq
              = some s :=
  ⟨by decide, by decide,
    C2_stranger_forbidden demoEnv okS3 strangerReq 0 (by decide) (by decide)⟩

/-- C10: for every `IP_WHITELIST` string and every resolved client address,
the allow-list `main` builds reads true at the address exactly when the
address is one of the segments of the string split on `","`, compared as is;
the address check passes such a request on untouched and aborts every other
one through `AbortWithStatusJSON(403, ...)`.  The segments are those of the
one cut of the string at its commas: joined with `","` they give the string
back, none holds a comma, there is one more of them than there are commas,
and whatever non-empty list of comma-free strings joins to the string is the
list of segments, so that the address check admits exactly its members. -/
theorem C10_admits_exactly_the_segments (env : Env) (s3Client : S3)
    (next : State → Option State) (s : State) :
    ((main env s3Client).whitelist.index s.c.ClientIP = true
        ↔ s.c.ClientIP ∈ Split (Getenv env "IP_WHITELIST") ',')
      ∧ IPWhiteList (main env s3Client).whitelist next s
        = (if s.c.ClientIP ∈ Split (Getenv env "IP_WHITELIST") ',' then some s
           else some { s with c := s.c.AbortWithStatusJSON 403 forbiddenBody })
      ∧ (s.c.AbortWithStatusJSON 403 forbiddenBody).IsAborted = true
      ∧ (s.c.AbortWithStatusJSON 403 forbiddenBody).Writer.status
          = (if s.c.Writer.written = true then s.c.Writer.status else 403)
      ∧ List.intercalate [','] ((Split (Getenv env "IP_WHITELIST") ',').map String.toList)
          = (Getenv env "IP_WHITELIST").toList
      ∧ (∀ seg ∈ Split (Getenv env "IP_WHITELIST") ',', ',' ∉ seg.toList)
      ∧ (Split (Getenv env "IP_WHITELIST") ',').length
          = (Getenv env "IP_WHITELIST").toList.count ',' + 1
      ∧ ∀ segs : List String, segs ≠ [] → (∀ seg ∈ segs, ',' ∉ seg.toList) →
          List.intercalate [','] (segs.map String.toList)
            = (Getenv env "IP_WHITELIST").toList →
          Split (Getenv env "IP_WHITELIST") ',' = segs
            ∧ ((main env s3Client).whitelist.index s.c.ClientIP = true ↔ s.c.ClientIP ∈ segs)
            ∧ IPWhiteList (main env s3Client).whitelist next s
              = (if s.c.ClientIP ∈ segs then some s
                 else some { s with c := s.c.AbortWithStatusJSON 403 forbiddenBody }) := by
  have hw := whitelist_index env s3Client s.c.ClientIP
  have hh : IPWhiteList (main env s3Client).whitelist next s
      = (if s.c.ClientIP ∈ Split (Getenv env "IP_WHITELIST") ',' then some s
         else some { s with c := s.c.AbortWithStatusJSON 403 forbiddenBody }) := by
    rw [IPWhiteList_eq]
    by_cases h : s.c.ClientIP ∈ Split (Getenv env "IP_WHITELIST") ','
    · rw [if_pos h, if_pos (hw.mpr h)]
    · rw [if_neg h, if_neg (fun h1 => h (hw.mp h1))]
  obtain ⟨j1, j2, j3⟩ := Split_spec (Getenv env "IP_WHITELIST") ','
  refine ⟨hw, hh, ?_, ?_, j1, j2, j3, ?_⟩
  · simp [Context.AbortWithStatusJSON, JSON_index, Context.IsAborted, Context.Abort, abortIndex]
  · simp only [Context.AbortWithStatusJSON, Context.JSON, Context.Abort, bodyAllowedForStatus,
      ResponseWriter.WriteHeader, ResponseWriter.Write]
    by_cases hwr : s.c.Writer.written = true <;> by_cases hst : s.c.Writer.status = 403 <;>
      simp [hwr, hst]
  · intro segs hne hfree hjoin
    have hu := Split_unique (Getenv env "IP_WHITELIST") ',' segs hne hfree hjoin
    refine ⟨hu, ?_, ?_⟩
    · rw [← hu]; exact hw
    · rw [← hu]; exact hh

/-- C10 on the sample allow-list `10.0.0.1,10.0.0.2`, which admits `10.0.0.1`,
and on the allow-list `10.0.0.1, 10.0.0.2,,10.0.0.1`, whose segments are
`10.0.0.1`, ` 10.0.0.2` with its blank, the empty string and `10.0.0.1`
again, and which refuses `10.0.0.2`. -/
theorem C10_admits_exactly_the_segments_witness :
    (Split (Getenv demoEnv "IP_WHITELIST") ',' = ["10.0.0.1", "10.0.0.2"]
        ∧ (main demoEnv okS3).whitelist.index "10.0.0.1" = true
        ∧ IPWhiteList (main demoEnv okS3).whitelist (fun s => some s) (State.init demoReq)
            = some (State.init demoReq))
      ∧ (Split (Getenv spacedEnv "IP_WHITELIST") ','
            = ["10.0.0.1", " 10.0.0.2", "", "10.0.0.1"]
        ∧ (main spacedEnv okS3).whitelist.index "10.0.0.2" = false
        ∧ IPWhiteList (main spacedEnv okS3).whitelist (fun s => some s) (State.init secondReq)
            = some { State.init secondReq with
                     c := (State.init secondReq).c.AbortWithStatusJSON 403 forbiddenBody }) := by
  obtain ⟨a1, a2, a3⟩ :=
    (C10_admits_exactly_the_segments demoEnv okS3 (fun s => some s)
        (State.init demoReq)).2.2.2.2.2.2.2
      ["10.0.0.1", "10.0.0.2"] (by decide) (by decide) (by decide)
  obtain ⟨b1, b2, b3⟩ :=
    (C10_admits_exactly_the_segments spacedEnv okS3 (fun s => some s)
        (State.init secondReq)).2.2.2.2.2.2.2
      ["10.0.0.1", " 10.0.0.2", "", "10.0.0.1"] (by decide) (by decide) (by decide)
  refine ⟨⟨a1, a2.mpr (by decide), ?_⟩, ⟨b1, ?_, ?_⟩⟩
  · rw [a3]
    exact if_pos (by decide)
  · cases h : (main spacedEnv okS3).whitelist.index "10.0.0.2" with
    | false => rfl
    | true => exact absurd (b2.mp h) (by decide)
  · rw [b3]
    exact if_neg (by decide)

/-- C8, evaluated: with `IP_WHITELIST` not set, `main` builds the allow-list
holding the empty string, where the same split of an unset `ALLOWED_ORIGINS`
is guarded and gives the empty list; a request with the configured key whose
resolved client address is the empty string passes the address check: the
upload handler runs, one storage write is issued and the answer is 200. -/
theorem C8_unset_list_admits_empty_address :
    Getenv noListEnv "IP_WHITELIST" = ""
      ∧ (main noListEnv okS3).whitelist = [("", true)]
      ∧ (main noListEnv okS3).allowedOrigins = []
      ∧ noAddrReq.ClientIP = ""
      ∧ (serveUpload noListEnv okS3 4 noAddrReq).map
          (fun s => (s.c.Writer.status, s.c.IsAborted, s.puts.length))
        = some (200, false, 1) := by
  decide

/-- C9, refuted as stated: with `API_KEY` not set the configured secret is the
empty string, and the sample request carrying no `X-API-Key` header passes
the key check and is answered 200 after one storage write. -/
theorem C9_unset_secret_admits_missing_key :
    noKeyReq.Header.lookup "X-Api-Key" = none
      ∧ Getenv noKeyEnv "API_KEY" = ""
      ∧ (serveUpload noKeyEnv okS3 4 noKeyReq).map
          (fun s => (s.c.Writer.status, s.c.IsAborted, s.puts.length))
        = some (200, false, 1) := by
  decide

/-- C9, amended: a request to `PUT /api/upload` carrying no `X-API-Key`
header is answered 401 with body `{"error":"Unauthorized"}` and the chain is
aborted, for every non-empty secret `main` loads from `API_KEY`. -/
theorem C9_missing_key_unauthorized (env : Env) (s3Client : S3) (req : Request) (fuel : Nat)
    (hsecret : Getenv env "API_KEY" ≠ "")
    (hnone : req.Header.lookup "X-Api-Key" = none) :
    (State.init req).c.GetHeader "X-API-Key" = ""
      ∧ ∃ s, serveUpload env s3Client (fuel + 2) req = some s
        ∧ s.c.Writer = { status := 401, written := true, body := [errorBody "Unauthorized"] }
        ∧ s.c.IsAborted = true
        ∧ s.puts = [] ∧ s.log = [] := by
  have hget : req.Header.Get "X-API-Key" = "" := by
    simp [Header.Get, canonical_api_key, hnone]
  refine ⟨hget, _, auth_reject (Getenv env "API_KEY") _ fuel req (by simp) ?_, rfl,
    by simp [Context.IsAborted, abortIndex],
    rfl, rfl⟩
  rw [hget]
  exact fun h => hsecret h.symm

/-- C9, amended, on the sample request sent without the header. -/
theorem C9_missing_key_unauthorized_witness :
    Getenv demoEnv "API_KEY" ≠ ""
      ∧ noKeyReq.Header.lookup "X-Api-Key" = none
      ∧ (State.init noKeyReq).c.GetHeader "X-API-Key" = ""
      ∧ ∃ s, serveUpload demoEnv okS3 (0 + 2) noKeyReq = some s
        ∧ s.c.Writer = { status := 401, written := true, body := [errorBody "Unauthorized"] }
        ∧ s.c.IsAborted = true
        ∧ s.puts = [] ∧ s.log = [] :=
  ⟨by decide, by decide,
    C9_missing_key_unauthorized demoEnv okS3 noKeyReq 0 (by decide) (by decide)⟩

/-! ## The upload handler -/

/-- C3: on an admitted request whose form holds a file part `data` that opens
and reads as `B` and a field `key` of first value `k`, non-empty, the server
issues exactly one storage write, with the configured bucket, key `k` as
received, body `B` and content length the length of `B`; when the store
accepts it the answer is 200 with body `{"url": u ++ "/" ++ k}`, `u` being the
configured CDN base URL. -/
theorem C3_upload_stores_and_returns_url (env : Env) (s3Client : S3) (req : Request)
    (fuel : Nat) (form : Form) (fh : FileHeader) (fhs : List FileHeader) (file : File)
    (B : Bytes) (k : String) (ks : List String)
    (hkey : req.Header.Get "X-API-Key" = Getenv env "API_KEY")
    (hip : req.ClientIP ∈ Split (Getenv env "IP_WHITELIST") ',')
    (hform : req.MultipartForm = .ok form)
    (hpart : form.File.lookup "data" = some (fh :: fhs))
    (hopen : fh.Open = .ok file)
    (hread : file.ReadAll = .ok B)
    (hfield : form.Value.lookup "key" = some (k :: ks))
    (hk : k ≠ "") :
    ∃ s, serveUpload env s3Client (fuel + 4) req = some s
      ∧ s.puts =
          [({ Bucket := Getenv env "S3_BUCKET", Key := k, Body := B,
              ContentType := fh.Header.Get "Content-Type", ContentLength := (B.length : Int) },
            s3Client.PutObject
              { Bucket := Getenv env "S3_BUCKET", Key := k, Body := B,
                ContentType := fh.Header.Get "Content-Type", ContentLength := (B.length : Int) })]
      ∧ (s3Client.PutObject
            { Bucket := Getenv env "S3_BUCKET", Key := k, Body := B,
              ContentType := fh.Header.Get "Content-Type", ContentLength := (B.length : Int) }
          = none →
          s.c.Writer = { status := 200, written := true,
                         body := [urlBody (Getenv env "CDN_BASE_URL" ++ "/" ++ k)] }) := by
  obtain ⟨hfile, hpost⟩ := form_reads req form fh fhs file k ks hform hpart hopen hfield
  cases hput : s3Client.PutObject
      { Bucket := Getenv env "S3_BUCKET", Key := k, Body := B,
        ContentType := fh.Header.Get "Content-Type", ContentLength := (B.length : Int) } with
  | some err =>
    refine ⟨_, serve_put_fail env s3Client fuel req file fh B k err hkey hip hfile hpost hk hread
      hput, rfl, ?_⟩
    intro h
    cases h
  | none =>
    exact ⟨_, serve_put_ok env s3Client fuel req file fh B k hkey hip hfile hpost hk hread hput,
      rfl, fun _ => rfl⟩

/-- C3 on the sample request: key `images/a.png`, CDN base
`https://cdn.example.com`. -/
theorem C3_upload_stores_and_returns_url_witness :
    demoReq.Header.Get "X-API-Key" = Getenv demoEnv "API_KEY"
      ∧ demoReq.ClientIP ∈ Split (Getenv demoEnv "IP_WHITELIST") ','
      ∧ ∃ s, serveUpload demoEnv okS3 (0 + 4) demoReq = some s
        ∧ s.puts =
            [({ Bucket := "bkt", Key := "images/a.png", Body := [1, 2, 3],
                ContentType := "image/png", ContentLength := 3 }, none)]
        ∧ s.c.Writer = { status := 200, written := true,
                         body := [urlBody "https://cdn.example.com/images/a.png"] } := by
  obtain ⟨s, h1, h2, h3⟩ :=
    C3_upload_stores_and_returns_url demoEnv okS3 demoReq 0
      { Value := [("key", ["images/a.png"])], File := [("data", [pngPart [1, 2, 3]])] }
      (pngPart [1, 2, 3]) [] { ReadAll := .ok [1, 2, 3] } [1, 2, 3] "images/a.png" []
      (by decide) (by decide) rfl rfl rfl rfl rfl (by decide)
  refine ⟨by decide, by decide, s, h1, ?_, ?_⟩
  · rw [h2]
    decide
  · rw [h3 rfl]
    decide

/-- C4: on an admitted request the upload handler checks file, key, read in
that order.  If `FormFile("data")` fails the answer is 400 `Failed to get
file`, whatever the key field holds; else if the key field reads empty the
answer is 400 `Key is required`; else if reading the payload fails the answer
is 500 `Failed to read file`.  In the three cases no storage write is
issued. -/
theorem C4_validation_order (env : Env) (s3Client : S3) (req : Request) (fuel : Nat)
    (hkey : req.Header.Get "X-API-Key" = Getenv env "API_KEY")
    (hip : req.ClientIP ∈ Split (Getenv env "IP_WHITELIST") ',') :
    (∀ e, req.FormFile "data" = .error e →
        AnsweredWithoutWrite (serveUpload env s3Client (fuel + 4) req) 400
          (errorBody "Failed to get file"))
      ∧ (∀ file header, req.FormFile "data" = .ok (file, header) →
          (State.init req).c.PostForm "key" = "" →
          AnsweredWithoutWrite (serveUpload env s3Client (fuel + 4) req) 400
            (errorBody "Key is required"))
      ∧ (∀ file header e, req.FormFile "data" = .ok (file, header) →
          (State.init req).c.PostForm "key" ≠ "" →
          file.ReadAll = .error e →
          AnsweredWithoutWrite (serveUpload env s3Client (fuel + 4) req) 500
            (errorBody "Failed to read file")) := by
  refine ⟨?_, ?_, ?_⟩
  · intro e hfile
    rw [serve_no_file env s3Client fuel req e hkey hip hfile]
    exact ⟨rfl, rfl⟩
  · intro file header hfile hfield
    rw [serve_no_key env s3Client fuel req file header hkey hip hfile hfield]
    exact ⟨rfl, rfl⟩
  · intro file header e hfile hfield hread
    rw [serve_read_fail env s3Client fuel req file header e hkey hip hfile hfield hread]
    exact ⟨rfl, rfl⟩

/-- C4 on three sample requests, one for each check that fails. -/
theorem C4_validation_order_witness :
    (noFileReq.Header.Get "X-API-Key" = Getenv demoEnv "API_KEY"
        ∧ noFileReq.ClientIP ∈ Split (Getenv demoEnv "IP_WHITELIST") ','
        ∧ noFileReq.FormFile "data" = .error "http: no such file"
        ∧ AnsweredWithoutWrite (serveUpload demoEnv okS3 (0 + 4) noFileReq) 400
            (errorBody "Failed to get file"))
      ∧ (noFieldReq.FormFile "data" = .ok ({ ReadAll := .ok [1, 2, 3] }, pngPart [1, 2, 3])
        ∧ (State.init noFieldReq).c.PostForm "key" = ""
        ∧ AnsweredWithoutWrite (serveUpload demoEnv okS3 (0 + 4) noFieldReq) 400
            (errorBody "Key is required"))
      ∧ (brokenReq.FormFile "data" = .ok ({ ReadAll := .error "unexpected EOF" }, brokenPart)
        ∧ (State.init brokenReq).c.PostForm "key" ≠ ""
        ∧ AnsweredWithoutWrite (serveUpload demoEnv okS3 (0 + 4) brokenReq) 500
            (errorBody "Failed to read file")) :=
  ⟨⟨by decide, by decide, rfl,
      (C4_validation_order demoEnv okS3 noFileReq 0 (by decide) (by decide)).1 _ rfl⟩,
    ⟨rfl, by decide,
      (C4_validation_order demoEnv okS3 noFieldReq 0 (by decide) (by decide)).2.1 _ _ rfl
        (by decide)⟩,
    ⟨rfl, by decide,
      (C4_validation_order demoEnv okS3 brokenReq 0 (by decide) (by decide)).2.2 _ _ _ rfl
        (by decide) rfl⟩⟩

/-- C5: on an admitted, well-formed upload whose storage write fails, the
answer is 500 with body `{"error":"Failed to upload file"}`; two stores that
fail the same request with errors `e1` and `e2` leave the same context, hence
the same status and body, and the error text goes to the server log only. -/
theorem C5_backend_error_not_exposed (env : Env) (s3a s3b : S3) (req : Request) (fuel : Nat)
    (form : Form) (fh : FileHeader) (fhs : List FileHeader) (file : File)
    (B : Bytes) (k : String) (ks : List String) (e1 e2 : GoError)
    (hkey : req.Header.Get "X-API-Key" = Getenv env "API_KEY")
    (hip : req.ClientIP ∈ Split (Getenv env "IP_WHITELIST") ',')
    (hform : req.MultipartForm = .ok form)
    (hpart : form.File.lookup "data" = some (fh :: fhs))
    (hopen : fh.Open = .ok file)
    (hread : file.ReadAll = .ok B)
    (hfield : form.Value.lookup "key" = some (k :: ks))
    (hk : k ≠ "")
    (h1 : s3a.PutObject
        { Bucket := Getenv env "S3_BUCKET", Key := k, Body := B,
          ContentType := fh.Header.Get "Content-Type", ContentLength := (B.length : Int) }
      = some e1)
    (h2 : s3b.PutObject
        { Bucket := Getenv env "S3_BUCKET", Key := k, Body := B,
          ContentType := fh.Header.Get "Content-Type", ContentLength := (B.length : Int) }
      = some e2) :
    ∃ sa sb, serveUpload env s3a (fuel + 4) req = some sa
      ∧ serveUpload env s3b (fuel + 4) req = some sb
      ∧ sa.c.Writer = { status := 500, written := true,
                        body := [errorBody "Failed to upload file"] }
      ∧ sb.c = sa.c
      ∧ sa.log = ["Failed to upload file to S3: " ++ e1]
      ∧ sb.log = ["Failed to upload file to S3: " ++ e2] := by
  obtain ⟨hfile, hpost⟩ := form_reads req form fh fhs file k ks hform hpart hopen hfield
  exact ⟨_, _, serve_put_fail env s3a fuel req file fh B k e1 hkey hip hfile hpost hk hread h1,
    serve_put_fail env s3b fuel req file fh B k e2 hkey hip hfile hpost hk hread h2,
    rfl, rfl, rfl, rfl⟩

/-- C5 on the sample request and two stores failing with different errors. -/
theorem C5_backend_error_not_exposed_witness :
    demoReq.Header.Get "X-API-Key" = Getenv demoEnv "API_KEY"
      ∧ demoReq.ClientIP ∈ Split (Getenv demoEnv "IP_WHITELIST") ','
      ∧ ∃ sa sb, serveUpload demoEnv (failS3 "AccessDenied") (0 + 4) demoReq = some sa
        ∧ serveUpload demoEnv (failS3 "NoSuchBucket") (0 + 4) demoReq = some sb
        ∧ sa.c.Writer = { status := 500, written := true,
                          body := [errorBody "Failed to upload file"] }
        ∧ sb.c = sa.c
        ∧ sa.log = ["Failed to upload file to S3: " ++ "AccessDenied"]
        ∧ sb.log = ["Failed to upload file to S3: " ++ "NoSuchBucket"] :=
  ⟨by decide, by decide,
    C5_backend_error_not_exposed demoEnv (failS3 "AccessDenied") (failS3 "NoSuchBucket") demoReq 0
      { Value := [("key", ["images/a.png"])], File := [("data", [pngPart [1, 2, 3]])] }
      (pngPart [1, 2, 3]) [] { ReadAll := .ok [1, 2, 3] } [1, 2, 3] "images/a.png" []
      "AccessDenied" "NoSuchBucket"
      (by decide) (by decide) rfl rfl rfl rfl rfl (by decide) rfl rfl⟩

/-- C6: every request to the upload route is answered; at most one storage
write is issued for it; the answer carries a URL exactly when one write was
issued and the store accepted it; an answer of status other than 200 carries
no URL and comes with no accepted write; an answer carrying the error of the
file, key or read check, or of status 401 or 403, comes with no write at
all. -/
theorem C6_one_write_all_or_nothing (env : Env) (s3Client : S3) (req : Request) (fuel : Nat) :
    ∃ s, serveUpload env s3Client (fuel + 4) req = some s
      ∧ s.puts.length ≤ 1
      ∧ (s.carries "url" = true ↔ ∃ inp, s.puts = [(inp, none)])
      ∧ (s.c.Writer.status ≠ 200 → s.carries "url" = false ∧ ∀ p ∈ s.puts, p.2 ≠ none)
      ∧ (∀ msg ∈ ["Failed to get file", "Key is required", "Failed to read file"],
          s.c.Writer.body = [errorBody msg] → s.puts = [])
      ∧ (s.c.Writer.status = 401 ∨ s.c.Writer.status = 403 → s.puts = []) := by
  by_cases hkey : req.Header.Get "X-API-Key" = Getenv env "API_KEY"
  swap
  · refine ⟨_, auth_reject (Getenv env "API_KEY") _ (fuel + 2) req (by simp) hkey, ?_⟩
    simp [State.carries, errorBody]
  by_cases hip : req.ClientIP ∈ Split (Getenv env "IP_WHITELIST") ','
  swap
  · have hidx : (main env s3Client).whitelist.index req.ClientIP = false := by
      cases h : (main env s3Client).whitelist.index req.ClientIP with
      | false => rfl
      | true => exact absurd ((whitelist_index env s3Client req.ClientIP).mp h) hip
    refine ⟨_, ip_reject (Getenv env "API_KEY") (main env s3Client).whitelist _ (fuel + 1) req
      (by simp) hkey hidx, ?_⟩
    simp [State.carries, forbiddenBody]
  cases hfile : req.FormFile "data" with
  | error e =>
    refine ⟨_, serve_no_file env s3Client fuel req e hkey hip hfile, ?_⟩
    simp [State.carries, errorBody]
  | ok fh =>
    obtain ⟨file, header⟩ := fh
    by_cases hfield : (State.init req).c.PostForm "key" = ""
    · refine ⟨_, serve_no_key env s3Client fuel req file header hkey hip hfile hfield, ?_⟩
      simp [State.carries, errorBody]
    · cases hread : file.ReadAll with
      | error e =>
        refine ⟨_, serve_read_fail env s3Client fuel req file header e hkey hip hfile hfield
          hread, ?_⟩
        simp [State.carries, errorBody]
      | ok data =>
        cases hput : s3Client.PutObject
            { Bucket := Getenv env "S3_BUCKET", Key := (State.init req).c.PostForm "key",
              Body := data, ContentType := header.Header.Get "Content-Type",
              ContentLength := (data.length : Int) } with
        | some err =>
          refine ⟨_, serve_put_fail env s3Client fuel req file header data _ err hkey hip hfile
            rfl hfield hread hput, ?_⟩
          simp [State.carries, errorBody]
        | none =>
          refine ⟨_, serve_put_ok env s3Client fuel req file header data _ hkey hip hfile
            rfl hfield hread hput, ?_⟩
          simp [State.carries, errorBody, urlBody]

/-- C6 on the sample request and a store that refuses the write. -/
theorem C6_one_write_all_or_nothing_witness :
    ∃ s, serveUpload demoEnv (failS3 "AccessDenied") (0 + 4) demoReq = some s
      ∧ s.c.Writer.status ≠ 200
      ∧ s.puts.length ≤ 1
      ∧ s.carries "url" = false
      ∧ ∀ p ∈ s.puts, p.2 ≠ none := by
  obtain ⟨s, h1, h2, _, h4, _, _⟩ :=
    C6_one_write_all_or_nothing demoEnv (failS3 "AccessDenied") demoReq 0
  have h0 : serveUpload demoEnv (failS3 "AccessDenied") (0 + 4) demoReq
      = some { c := { Request := demoReq,
                      Writer := { status := 500, written := true,
                                  body := [errorBody "Failed to upload file"] },
                      index := 4 },
               puts := [({ Bucket := "bkt", Key := "images/a.png", Body := [1, 2, 3],
                           ContentType := "image/png", ContentLength := 3 },
                         some "AccessDenied")],
               log := ["Failed to upload file to S3: AccessDenied"] } := by
    rfl
  have hs : s.c.Writer.status ≠ 200 := by
    have := Option.some.inj (h1.symm.trans h0)
    rw [this]
    decide
  exact ⟨s, h1, hs, h2, (h4 hs).1, (h4 hs).2⟩

/-- C7: whatever the request and whatever the store answers, `uploadFile`
answers by one call `c.JSON(code, resp)` with `resp` an `UploadApiResponse`
in which exactly one of `Error` and `URL` is set, so that the body written
has exactly one of the members `error` and `url`; `URL` is set exactly when
`code` is 200, and `code` is the status of the response when nothing was
written before. -/
theorem C7_error_xor_url (state : AppState) (next : State → Option State) (s : State) :
    ∃ code resp s1, uploadFile state next s = some s1
      ∧ s1.c = s.c.JSON code (UploadApiResponse.marshal resp)
      ∧ s1.c.Writer.body = s.c.Writer.body ++ [UploadApiResponse.marshal resp]
      ∧ s1.c.Writer.status = (if s.c.Writer.written = true then s.c.Writer.status else code)
      ∧ ((resp.Error.isSome = true ∧ resp.URL = none)
          ∨ (resp.Error = none ∧ resp.URL.isSome = true))
      ∧ (((UploadApiResponse.marshal resp).lookup "error").isSome
          ≠ ((UploadApiResponse.marshal resp).lookup "url").isSome)
      ∧ (resp.URL.isSome = true ↔ code = 200) := by
  have hbody : ∀ (code : Nat) (obj : JsonObject), code = 200 ∨ code = 400 ∨ code = 500 →
      (s.c.JSON code obj).Writer.body = s.c.Writer.body ++ [obj]
        ∧ (s.c.JSON code obj).Writer.status
            = (if s.c.Writer.written = true then s.c.Writer.status else code) := by
    intro code obj hcode
    have hallow : bodyAllowedForStatus code = true := by
      rcases hcode with h | h | h <;> subst h <;> decide
    have hpos : 0 < code := by
      rcases hcode with h | h | h <;> subst h <;> decide
    exact JSON_Writer s.c code obj hpos hallow
  cases hf : s.c.Request.FormFile "data" with
  | error e =>
    refine ⟨400, { Error := some "Failed to get file", URL := none }, _,
      upload_no_file state next s e hf, rfl, (hbody 400 _ (by simp)).1,
      (hbody 400 _ (by simp)).2, ?_⟩
    simp [UploadApiResponse.marshal]
  | ok fh =>
    obtain ⟨file, header⟩ := fh
    by_cases hk : s.c.PostForm "key" = ""
    · refine ⟨400, { Error := some "Key is required", URL := none }, _,
        upload_no_key state next s file header hf hk, rfl, (hbody 400 _ (by simp)).1,
        (hbody 400 _ (by simp)).2, ?_⟩
      simp [UploadApiResponse.marshal]
    · cases hr : file.ReadAll with
      | error e =>
        refine ⟨500, { Error := some "Failed to read file", URL := none }, _,
          upload_read_fail state next s file header e hf hk hr, rfl,
          (hbody 500 _ (by simp)).1, (hbody 500 _ (by simp)).2, ?_⟩
        simp [UploadApiResponse.marshal]
      | ok data =>
        cases hp : state.S3Client.PutObject
            (uploadInputOf state (s.c.PostForm "key") data header) with
        | some err =>
          refine ⟨500, { Error := some "Failed to upload file", URL := none }, _,
            upload_put_fail state next s file header data err hf hk hr hp, rfl,
            (hbody 500 _ (by simp)).1, (hbody 500 _ (by simp)).2, ?_⟩
          simp [UploadApiResponse.marshal]
        | none =>
          refine ⟨200,
            { Error := none, URL := some (state.CDNBaseURL ++ "/" ++ s.c.PostForm "key") }, _,
            upload_put_ok state next s file header data hf hk hr hp, rfl,
            (hbody 200 _ (by simp)).1, (hbody 200 _ (by simp)).2, ?_⟩
          simp [UploadApiResponse.marshal]

end UploadServer
